import Mathlib

/-!
Shallow embedding of the URAProteomeMatcher matching/prediction engine
(`src/classes/Matcher.py` and the per-row driver loop in
`src/URAProteomeMatcher.py`).

Modelling conventions:
* a Python `dict` (the upstream-regulator catalog `name -> prediction`, the
  group catalog `group -> member genes`) is an insertion-ordered association
  list `List (String × _)`; dict key uniqueness, where a proof needs it, is an
  explicit `Nodup` hypothesis;
* a Python `set` of strings is a `Finset String`;
* Python string helpers used by the source (`str.lower`, `str.split`,
  `','.join`, f-string concatenation) are re-implemented below over
  `String.data` so that every definition evaluates by kernel reduction;
* a pandas `DataFrame` is a column-name list plus aligned rows of cell
  strings; only the column/row structure matters for the claims about it.
-/

namespace URAProteome

/-- Python `str.lower` (ASCII case folding, which is all the source's
column names use). -/
def pyLower (s : String) : String := ⟨s.data.map Char.toLower⟩

/-- Auxiliary for `pySplit`: accumulates the current field in reverse. -/
def pySplitAux (sep : Char) : List Char → List Char → List (List Char)
  | [], cur => [cur.reverse]
  | c :: rest, cur =>
      if c = sep then cur.reverse :: pySplitAux sep rest [] else pySplitAux sep rest (c :: cur)

/-- Python `s.split(sep)` for a one-character separator; in particular
`''.split(';') = ['']` (a singleton list holding the empty string). -/
def pySplit (sep : Char) (s : String) : List String :=
  (pySplitAux sep s.data []).map String.mk

/-- Python `sep.join(xs)`. -/
def joinWith (sep : String) : List String → String
  | [] => ""
  | [x] => x
  | x :: y :: xs => x ++ sep ++ joinWith sep (y :: xs)

/-- The gene / protein-name list of one row, as extracted by `main`
(`src/URAProteomeMatcher.py`): `row.get(field, '').split(';')`, where `none`
models the field being absent from the row. -/
def rowFieldList (field : Option String) : List String :=
  pySplit ';' (field.getD "")

/-! ### `re.sub(r' \[.*\]', '', s)` (used by `get_bm_predictions`)

The pattern anchors at the leftmost `" ["` that is followed by some `"]"`,
and the greedy `.*` extends the match to the last `"]"` of the string; the
text after that last `"]"` contains no further `"]"`, so no second
substitution can fire.  (`.` in the pattern does not cross a newline; the
strings this program feeds in are single-line CSV/TSV fields and JSON keys,
so `.*` is modelled as spanning arbitrary characters.) -/

/-- One substitution step of `re.sub(r' \[.*\]', '', ·)` over the character
list: drop from the first `" ["` that has a later `"]"` through the last
`"]"` of the string. -/
def subBracketAux : List Char → List Char
  | [] => []
  | [c] => [c]
  | c1 :: c2 :: rest =>
      if c1 = ' ' ∧ c2 = '[' ∧ ']' ∈ rest then
        (rest.reverse.takeWhile (fun c => ¬ (c = ']'))).reverse
      else c1 :: subBracketAux (c2 :: rest)

/-- `re.sub(r' \[.*\]', '', s)` as applied to each best-match label in
`get_bm_predictions`. -/
def sub_bracket (s : String) : String := ⟨subBracketAux s.data⟩

/-- Whether the string contains a substring of the form `" [...]"`, i.e. an
occurrence of `" ["` with a `"]"` somewhere after it — exactly the condition
under which the regex `' \[.*\]'` finds a match. -/
def containsSpaceBracketClose : List Char → Bool
  | [] => false
  | [_] => false
  | c1 :: c2 :: rest =>
      if c1 = ' ' ∧ c2 = '[' ∧ ']' ∈ rest then true
      else containsSpaceBracketClose (c2 :: rest)

/-! ### Catalog-column identification (`load_upstream_regulators`, the
structural part the error-handling claim is about)

The source lowercases the column names, then filters them with
`pandas.DataFrame.filter(regex=...)`, which keeps a column when `re.search`
finds the pattern anywhere in its name.  When the filter does not yield
exactly one column the source evaluates `Exception("...")` **without
raising it**, so the local variable (`ur_colname` / `predic_colname`) is
simply never assigned; execution continues and the first later statement
that reads the variable dies with an `UnboundLocalError`. -/

/-- Outcome of the column-identification phase of
`load_upstream_regulators`. -/
inductive LoadColumnsResult
  /-- both columns identified; carries the two column names -/
  | ok (ur_colname predic_colname : String)
  /-- an exception was actually raised with this message -/
  | raisedError (msg : String)
  /-- execution read a local variable that was never assigned -/
  | unboundLocalError (var : String)
deriving DecidableEq

/-- `re.search`: does the predicate match at some position of the list? -/
def searchB (p : List Char → Bool) : List Char → Bool
  | [] => p []
  | c :: rest => p (c :: rest) || searchB p rest

/-- Match of the regex `upstream.regulator` at the head of the list:
literal `upstream`, any one character other than a newline, literal
`regulator`. -/
def urRegexAt (l : List Char) : Bool :=
  "upstream".data.isPrefixOf l &&
    (match l.drop 8 with
     | [] => false
     | c :: rest => decide (¬ (c = '\x0a')) && "regulator".data.isPrefixOf rest)

/-- `ur_data.filter(regex='upstream.regulator')` keeps this column name. -/
def matchesURRegex (c : String) : Bool := searchB urRegexAt c.data

/-- Match of the regex `predict.*` at the head of the list (the `.*` also
matches the empty string, so this is just the literal `predict`). -/
def predicRegexAt (l : List Char) : Bool := "predict".data.isPrefixOf l

/-- `ur_data.filter(regex='predict.*')` keeps this column name. -/
def matchesPredicRegex (c : String) : Bool := searchB predicRegexAt c.data

/-- Column identification of `load_upstream_regulators`
(`src/classes/Matcher.py`): lowercase the headers, filter by the two
regexes, keep the single match when there is exactly one.  In the non-unique
case the source builds an `Exception(...)` but never raises it, so no
`raisedError` is produced there; the corresponding local stays unassigned
and the first later read of it (`predic_colname` in the `"n.s."` rewrite
line, then `ur_colname` in the two-column projection) raises
`UnboundLocalError`. -/
def identify_catalog_columns (cols : List String) : LoadColumnsResult :=
  let lcols := cols.map pyLower
  let urMatches := lcols.filter matchesURRegex
  let ur? : Option String := match urMatches with | [u] => some u | _ => none
  let predicMatches := lcols.filter matchesPredicRegex
  let predic? : Option String := match predicMatches with | [p] => some p | _ => none
  match predic?, ur? with
  | none, _ => .unboundLocalError "predic_colname"
  | some _, none => .unboundLocalError "ur_colname"
  | some p, some u => .ok u p

/-! ### Significance filtering (`load_upstream_regulators`, tail part) -/

/-- The `"n.s."` filtering applied to the freshly built catalog dict
(`src/classes/Matcher.py`, `load_upstream_regulators`): collect the
non-significant entries; when they are strictly fewer than the whole
catalog, delete them; otherwise keep the catalog and emit the
`logger.error` warning (modelled as the returned flag). -/
def filter_significant (upstream_regulators : List (String × String)) :
    List (String × String) × Bool :=
  let not_significant := upstream_regulators.filter (fun rp => decide (rp.2 = "n.s."))
  if not_significant.length < upstream_regulators.length then
    (upstream_regulators.filter (fun rp => decide (¬ (rp.2 = "n.s."))), false)
  else
    (upstream_regulators, true)

/-! ### Row matching (`get_ur_exact_matches`, `get_ur_group_matches`,
`get_ur_best_matches`) -/

/-- `get_ur_exact_matches` (`src/classes/Matcher.py`): for each catalog
entry, add the regulator when it occurs literally among the genes, or —
`elif`, and only when `ignore_protein_name_matches` is false — when
`f'{regulator}_HUMAN'` or `f'{regulator}_MOUSE'` occurs literally among the
protein names. -/
def get_ur_exact_matches (upstream_regulators : List (String × String))
    (genes protein_names : List String) (ignore_protein_name_matches : Bool) :
    Finset String :=
  upstream_regulators.foldl
    (fun s rp =>
      if rp.1 ∈ genes then insert rp.1 s
      else if (rp.1 ++ "_HUMAN") ∈ protein_names ∨ (rp.1 ++ "_MOUSE") ∈ protein_names then
        if ¬ (ignore_protein_name_matches = true) then insert rp.1 s else s
      else s)
    ∅

/-- The per-gene update of the `group_matches` dict in
`get_ur_group_matches`: append the gene to the group's entry, creating the
entry (at the end, as dict insertion does) when absent. -/
def addGroupGene (gm : List (String × List String)) (group g : String) :
    List (String × List String) :=
  if group ∈ gm.map Prod.fst then
    gm.map (fun e => if e.1 = group then (e.1, e.2 ++ [g]) else e)
  else gm ++ [(group, [g])]

/-- The inner `for gene in genes` loop of `get_ur_group_matches` for one
group. -/
def groupGenesFold (gm : List (String × List String)) (group : String)
    (group_genes genes : List String) : List (String × List String) :=
  genes.foldl (fun acc g => if g ∈ group_genes then addGroupGene acc group g else acc) gm

/-- The outer `for group, group_genes in group_data.items()` loop of
`get_ur_group_matches`; note the `if group in upstream_regulators` gate on
catalog membership. -/
def groupMatchesFold (upstream_regulators : List (String × String))
    (group_data : List (String × List String)) (genes : List String) :
    List (String × List String) :=
  group_data.foldl
    (fun gm e =>
      if e.1 ∈ upstream_regulators.map Prod.fst then groupGenesFold gm e.1 e.2 genes
      else gm)
    []

/-- `get_ur_group_matches` (`src/classes/Matcher.py`): run the two nested
loops when `group_data` is truthy (a `None`/absent group file is the empty
list here), then render each accumulated entry as the composite label
`f"{k} [{','.join(v)}]"` and collect the labels into a set. -/
def get_ur_group_matches (upstream_regulators : List (String × String))
    (group_data : List (String × List String)) (genes : List String) :
    Finset String :=
  let group_matches :=
    if group_data.isEmpty then [] else groupMatchesFold upstream_regulators group_data genes
  (group_matches.map (fun e => e.1 ++ " [" ++ joinWith "," e.2 ++ "]")).toFinset

/-- `get_ur_best_matches` (`src/classes/Matcher.py`): start from the empty
set and `update` it with the exact matches when those are non-empty, `elif`
with the group matches when those are non-empty. -/
def get_ur_best_matches (ur_exact_matches ur_group_matches : Finset String) :
    Finset String :=
  if ur_exact_matches.Nonempty then ∅ ∪ ur_exact_matches
  else if ur_group_matches.Nonempty then ∅ ∪ ur_group_matches
  else ∅

/-! ### Prediction resolution (`get_em_predictions`, `get_bm_predictions`) -/

/-- `get_em_predictions` (`src/classes/Matcher.py`): walk the catalog in
insertion order and append the prediction of every regulator whose name is
in the given list. -/
def get_em_predictions (upstream_regulators : List (String × String))
    (exact_match_urs : List String) : List String :=
  upstream_regulators.foldl
    (fun acc rp => if rp.1 ∈ exact_match_urs then acc ++ [rp.2] else acc) []

/-- `get_bm_predictions` (`src/classes/Matcher.py`): like
`get_em_predictions`, but membership is tested against
`[re.sub(r' \[.*\]', '', i) for i in best_match_urs]`. -/
def get_bm_predictions (upstream_regulators : List (String × String))
    (best_match_urs : List String) : List String :=
  upstream_regulators.foldl
    (fun acc rp => if rp.1 ∈ best_match_urs.map sub_bracket then acc ++ [rp.2] else acc) []

/-! ### The pipeline's frame (`drop_columns`, `update_proteome_data`, `main`) -/

/-- A pandas `DataFrame`, reduced to what the frame-effect claim observes:
the ordered column names and the aligned rows of cell values. -/
structure DataFrame where
  cols : List String
  rows : List (List String)
deriving DecidableEq

/-- `DataFrame.drop(c, axis=1)`: the new frame without column `c`. -/
def drop_col (df : DataFrame) (c : String) : DataFrame :=
  ⟨df.cols.filter (fun c' => decide (¬ (c' = c))),
   df.rows.map (fun row =>
     ((df.cols.zip row).filter (fun p => decide (¬ (p.1 = c)))).map Prod.snd)⟩

/-- `drop_columns` (`src/classes/Matcher.py`): for each listed column that is
present, the source evaluates `dataframe.drop(column, axis=1)` — which
returns a new frame — but never assigns the result and passes no `inplace`
flag, so the statement discards the dropped frame and the loop carries the
original frame forward unchanged. -/
def drop_columns (df : DataFrame) (columns : List String) : DataFrame :=
  columns.foldl
    (fun acc c =>
      if c ∈ acc.cols then (fun _ => acc) (drop_col acc c)
      else acc)
    df

/-- `pd.merge(df1, df2, left_index=True, right_index=True, how='outer')`
followed by `.fillna('')`, for frames carrying the default `RangeIndex`:
rows are aligned positionally (a missing side padded with `''` cells), and a
column name present in both frames is emitted twice, suffixed `_x` on the
left copy and `_y` on the right copy. -/
def merge_on_index (df1 df2 : DataFrame) : DataFrame :=
  ⟨df1.cols.map (fun c => if c ∈ df2.cols then c ++ "_x" else c) ++
     df2.cols.map (fun c => if c ∈ df1.cols then c ++ "_y" else c),
   (List.range (max df1.rows.length df2.rows.length)).map (fun i =>
     df1.rows.getD i (df1.cols.map (fun _ => "")) ++
       df2.rows.getD i (df2.cols.map (fun _ => "")))⟩

/-- `update_proteome_data` (`src/classes/Matcher.py`): build a frame from
the match columns and data and index-merge it onto the proteome frame. -/
def update_proteome_data (proteome_data : DataFrame) (match_columns : List String)
    (match_data : List (List String)) : DataFrame :=
  merge_on_index proteome_data ⟨match_columns, match_data⟩

/-- The column/row pipeline of `main` (`src/URAProteomeMatcher.py`): drop
the old match columns (a no-op, see `drop_columns`), merge in the three
match columns, then merge in the two prediction columns.  `match_data` and
`prediction_data` are the per-row value lists `main` accumulates. -/
def main_output (proteome_data : DataFrame)
    (match_data prediction_data : List (List String)) : DataFrame :=
  let dropped := drop_columns proteome_data ["UR_EXACT_MATCH", "UR_GROUP_MATCH", "UR_BEST_MATCH"]
  let updated :=
    update_proteome_data dropped ["UR_EXACT_MATCH", "UR_GROUP_MATCH", "UR_BEST_MATCH"] match_data
  update_proteome_data updated ["EXACT_MATCH_PREDIC", "BEST_MATCH_PREDIC"] prediction_data

/-! ## Helper lemmas -/

/-- The membership condition under which `get_ur_exact_matches` adds a
catalog regulator. -/
def exactCond (genes protein_names : List String) (ignore_protein_name_matches : Bool)
    (r : String) : Prop :=
  r ∈ genes ∨
    (ignore_protein_name_matches = false ∧
      ((r ++ "_HUMAN") ∈ protein_names ∨ (r ++ "_MOUSE") ∈ protein_names))

instance (genes protein_names : List String) (ipn : Bool) (r : String) :
    Decidable (exactCond genes protein_names ipn r) := by
  unfold exactCond; infer_instance

lemma exact_step_eq (genes protein_names : List String) (ipn : Bool)
    (s : Finset String) (rp : String × String) :
    (if rp.1 ∈ genes then insert rp.1 s
     else if (rp.1 ++ "_HUMAN") ∈ protein_names ∨ (rp.1 ++ "_MOUSE") ∈ protein_names then
       if ¬ (ipn = true) then insert rp.1 s else s
     else s) =
      if exactCond genes protein_names ipn rp.1 then insert rp.1 s else s := by
  unfold exactCond
  split_ifs with h1 h2 h3 h4 h5 <;> first
    | rfl
    | (exfalso; simp_all)

lemma mem_exact_foldl (genes protein_names : List String) (ipn : Bool) (R : String) :
    ∀ (cat : List (String × String)) (s : Finset String),
      R ∈ cat.foldl
          (fun s rp =>
            if rp.1 ∈ genes then insert rp.1 s
            else if (rp.1 ++ "_HUMAN") ∈ protein_names ∨ (rp.1 ++ "_MOUSE") ∈ protein_names then
              if ¬ (ipn = true) then insert rp.1 s else s
            else s) s ↔
        R ∈ s ∨ ∃ p, (R, p) ∈ cat ∧ exactCond genes protein_names ipn R := by
  intro cat
  induction cat with
  | nil => intro s; simp
  | cons rp rest ih =>
      intro s
      rw [List.foldl_cons, exact_step_eq genes protein_names ipn s rp, ih]
      by_cases hc : exactCond genes protein_names ipn rp.1
      · rw [if_pos hc]
        constructor
        · rintro (hR | hrest)
          · rcases Finset.mem_insert.mp hR with rfl | hs
            · exact Or.inr ⟨rp.2, List.mem_cons_self _ _, hc⟩
            · exact Or.inl hs
          · rcases hrest with ⟨p, hp, hcond⟩
            exact Or.inr ⟨p, List.mem_cons_of_mem _ hp, hcond⟩
        · rintro (hs | ⟨p, hp, hcond⟩)
          · exact Or.inl (Finset.mem_insert_of_mem hs)
          · rcases List.mem_cons.mp hp with heq | hmem
            · left
              apply Finset.mem_insert.mpr
              left
              exact congrArg Prod.fst heq
            · exact Or.inr ⟨p, hmem, hcond⟩
      · rw [if_neg hc]
        constructor
        · rintro (hs | ⟨p, hp, hcond⟩)
          · exact Or.inl hs
          · exact Or.inr ⟨p, List.mem_cons_of_mem _ hp, hcond⟩
        · rintro (hs | ⟨p, hp, hcond⟩)
          · exact Or.inl hs
          · rcases List.mem_cons.mp hp with heq | hmem
            · exfalso
              apply hc
              have : R = rp.1 := congrArg Prod.fst heq
              rwa [← this]
            · exact Or.inr ⟨p, hmem, hcond⟩

/-- Membership characterization of `get_ur_exact_matches`. -/
lemma mem_get_ur_exact_matches (cat : List (String × String))
    (genes protein_names : List String) (ipn : Bool) (R : String) :
    R ∈ get_ur_exact_matches cat genes protein_names ipn ↔
      (∃ p, (R, p) ∈ cat) ∧ exactCond genes protein_names ipn R := by
  unfold get_ur_exact_matches
  rw [mem_exact_foldl]
  simp only [Finset.not_mem_empty, false_or]
  constructor
  · rintro ⟨p, hp, hcond⟩; exact ⟨⟨p, hp⟩, hcond⟩
  · rintro ⟨⟨p, hp⟩, hcond⟩; exact ⟨p, hp, hcond⟩

lemma foldl_if_append (P : String × String → Prop) [DecidablePred P] :
    ∀ (cat : List (String × String)) (acc : List String),
      cat.foldl (fun acc rp => if P rp then acc ++ [rp.2] else acc) acc =
        acc ++ (cat.filter (fun rp => decide (P rp))).map Prod.snd := by
  intro cat
  induction cat with
  | nil => intro acc; simp
  | cons rp rest ih =>
      intro acc
      rw [List.foldl_cons]
      by_cases h : P rp
      · rw [if_pos h, ih, List.filter_cons_of_pos (by simpa using h)]
        simp
      · rw [if_neg h, ih, List.filter_cons_of_neg (by simpa using h)]

/-- `get_em_predictions` walks the catalog in order and keeps the
predictions of the entries whose name is in the list. -/
lemma get_em_predictions_eq (cat : List (String × String)) (urs : List String) :
    get_em_predictions cat urs =
      (cat.filter (fun rp => decide (rp.1 ∈ urs))).map Prod.snd := by
  unfold get_em_predictions
  simpa using foldl_if_append (fun rp => rp.1 ∈ urs) cat []

/-- `get_bm_predictions` is `get_em_predictions` after stripping the
bracket suffix from every supplied label. -/
lemma get_bm_predictions_eq_em (cat : List (String × String)) (urs : List String) :
    get_bm_predictions cat urs = get_em_predictions cat (urs.map sub_bracket) := rfl

lemma get_bm_predictions_eq (cat : List (String × String)) (urs : List String) :
    get_bm_predictions cat urs =
      (cat.filter (fun rp => decide (rp.1 ∈ urs.map sub_bracket))).map Prod.snd := by
  rw [get_bm_predictions_eq_em, get_em_predictions_eq]

lemma get_ur_best_matches_of_nonempty (ex gr : Finset String) (h : ex.Nonempty) :
    get_ur_best_matches ex gr = ex := by
  unfold get_ur_best_matches
  rw [if_pos h, Finset.empty_union]

lemma get_ur_best_matches_of_empty (ex gr : Finset String) (hex : ex = ∅)
    (hgr : gr.Nonempty) : get_ur_best_matches ex gr = gr := by
  unfold get_ur_best_matches
  rw [if_neg (by simp [hex]), if_pos hgr, Finset.empty_union]

lemma get_ur_best_matches_empty_iff (ex gr : Finset String) :
    get_ur_best_matches ex gr = ∅ ↔ ex = ∅ ∧ gr = ∅ := by
  unfold get_ur_best_matches
  by_cases hex : ex.Nonempty
  · rw [if_pos hex, Finset.empty_union]
    simp only [iff_def]
    constructor
    · rintro rfl; exact absurd hex (by simp)
    · rintro ⟨rfl, -⟩; rfl
  · rw [if_neg hex]
    rw [Finset.not_nonempty_iff_eq_empty] at hex
    by_cases hgr : gr.Nonempty
    · rw [if_pos hgr, Finset.empty_union]
      constructor
      · rintro rfl; exact absurd hgr (by simp)
      · rintro ⟨-, rfl⟩; rfl
    · rw [Finset.not_nonempty_iff_eq_empty] at hgr
      simp [hex, hgr]

/-- A string with no `" [...]"` substring is untouched by
`re.sub(r' \[.*\]', '', ·)`. -/
lemma subBracketAux_of_not_contains :
    ∀ l : List Char, containsSpaceBracketClose l = false → subBracketAux l = l := by
  intro l
  induction l with
  | nil => intro _; rfl
  | cons c1 rest ih =>
      cases rest with
      | nil => intro _; rfl
      | cons c2 rest2 =>
          intro h
          rw [containsSpaceBracketClose] at h
          rw [subBracketAux]
          split_ifs with hc
          · rw [if_pos hc] at h; exact absurd h (by simp)
          · rw [if_neg hc] at h
            rw [ih h]

/-- A regulator name with no `" [...]"` substring is a fixed point of
`sub_bracket`. -/
lemma sub_bracket_of_not_contains (s : String)
    (h : containsSpaceBracketClose s.data = false) : sub_bracket s = s := by
  unfold sub_bracket
  rw [subBracketAux_of_not_contains s.data h]

/-- Closed form of the `group_matches` dict that `get_ur_group_matches`
accumulates (for a group catalog with unique keys, i.e. a Python dict): one
entry per group that passes the catalog gate and has at least one member
among the record's genes, carrying the matching genes in record order. -/
def groupMatchesSpec (cat : List (String × String))
    (group_data : List (String × List String)) (genes : List String) :
    List (String × List String) :=
  (group_data.filter
      (fun e => decide (e.1 ∈ cat.map Prod.fst) && genes.any (fun g => decide (g ∈ e.2)))).map
    (fun e => (e.1, genes.filter (fun g => decide (g ∈ e.2))))

lemma map_update_of_not_mem (gm : List (String × List String)) (group g : String)
    (h : group ∉ gm.map Prod.fst) :
    gm.map (fun e => if e.1 = group then (e.1, e.2 ++ [g]) else e) = gm := by
  induction gm with
  | nil => rfl
  | cons e rest ih =>
      simp only [List.map_cons, List.mem_cons, not_or] at h ⊢
      rw [if_neg (fun hh => h.1 hh.symm), ih h.2]

lemma addGroupGene_append (gm : List (String × List String)) (group g : String)
    (acc : List String) (h : group ∉ gm.map Prod.fst) :
    addGroupGene (gm ++ [(group, acc)]) group g = gm ++ [(group, acc ++ [g])] := by
  unfold addGroupGene
  rw [if_pos (by simp)]
  rw [List.map_append, map_update_of_not_mem gm group g h]
  simp

lemma groupGenesFold_append (group : String) (M : List String) :
    ∀ (genes : List String) (gm : List (String × List String)) (acc : List String),
      group ∉ gm.map Prod.fst →
      groupGenesFold (gm ++ [(group, acc)]) group M genes =
        gm ++ [(group, acc ++ genes.filter (fun g => decide (g ∈ M)))] := by
  intro genes
  induction genes with
  | nil => intro gm acc _; simp [groupGenesFold]
  | cons g gs ih =>
      intro gm acc h
      unfold groupGenesFold at ih ⊢
      rw [List.foldl_cons]
      by_cases hg : g ∈ M
      · rw [if_pos hg, addGroupGene_append gm group g acc h, ih gm (acc ++ [g]) h,
          List.filter_cons_of_pos (by simpa using hg)]
        simp
      · rw [if_neg hg, ih gm acc h, List.filter_cons_of_neg (by simpa using hg)]

lemma groupGenesFold_eq (group : String) (M : List String) :
    ∀ (genes : List String) (gm : List (String × List String)),
      group ∉ gm.map Prod.fst →
      groupGenesFold gm group M genes =
        if genes.any (fun g => decide (g ∈ M)) then
          gm ++ [(group, genes.filter (fun g => decide (g ∈ M)))]
        else gm := by
  intro genes
  induction genes with
  | nil => intro gm _; simp [groupGenesFold]
  | cons g gs ih =>
      intro gm h
      unfold groupGenesFold at ih ⊢
      rw [List.foldl_cons]
      by_cases hg : g ∈ M
      · rw [if_pos hg]
        have hadd : addGroupGene gm group g = gm ++ [(group, [g])] := by
          unfold addGroupGene
          rw [if_neg h]
        rw [hadd]
        have := groupGenesFold_append group M gs gm [g] h
        unfold groupGenesFold at this
        rw [this, List.filter_cons_of_pos (by simpa using hg),
          if_pos (by simp [List.any_cons, hg])]
        simp
      · rw [if_neg hg, ih gm h, List.filter_cons_of_neg (by simpa using hg),
          List.any_cons, decide_eq_false hg, Bool.false_or]

lemma groupMatchesFold_aux (cat : List (String × String)) (genes : List String) :
    ∀ (gdata : List (String × List String)) (gm0 : List (String × List String)),
      (∀ e ∈ gdata, e.1 ∉ gm0.map Prod.fst) → (gdata.map Prod.fst).Nodup →
      gdata.foldl
          (fun gm e =>
            if e.1 ∈ cat.map Prod.fst then groupGenesFold gm e.1 e.2 genes else gm)
          gm0 =
        gm0 ++ groupMatchesSpec cat gdata genes := by
  intro gdata
  induction gdata with
  | nil => intro gm0 _ _; simp [groupMatchesSpec]
  | cons e rest ih =>
      intro gm0 hdisj hnodup
      rw [List.foldl_cons]
      have hnotmem : e.1 ∉ gm0.map Prod.fst := hdisj e (List.mem_cons_self _ _)
      rw [List.map_cons] at hnodup
      have hrest_nodup : (rest.map Prod.fst).Nodup := (List.nodup_cons.mp hnodup).2
      have hefst : e.1 ∉ rest.map Prod.fst := (List.nodup_cons.mp hnodup).1
      by_cases hcat : e.1 ∈ cat.map Prod.fst
      · rw [if_pos hcat, groupGenesFold_eq e.1 e.2 genes gm0 hnotmem]
        by_cases hany : genes.any (fun g => decide (g ∈ e.2)) = true
        · rw [if_pos hany]
          rw [ih (gm0 ++ [(e.1, genes.filter (fun g => decide (g ∈ e.2)))])
              (by
                intro e' he'
                simp only [List.map_append, List.mem_append, List.map_cons, List.map_nil,
                  List.mem_singleton, not_or]
                refine ⟨hdisj e' (List.mem_cons_of_mem _ he'), ?_⟩
                intro hcontra
                exact hefst (hcontra ▸ List.mem_map_of_mem Prod.fst he'))
              hrest_nodup]
          have hspec : groupMatchesSpec cat (e :: rest) genes =
              (e.1, genes.filter (fun g => decide (g ∈ e.2))) :: groupMatchesSpec cat rest genes := by
            unfold groupMatchesSpec
            rw [List.filter_cons_of_pos (by simp [hcat, hany])]
            simp
          rw [hspec, List.append_assoc]
          rfl
        · rw [if_neg hany, ih gm0 (fun e' he' => hdisj e' (List.mem_cons_of_mem _ he'))
            hrest_nodup]
          have hspec : groupMatchesSpec cat (e :: rest) genes = groupMatchesSpec cat rest genes := by
            unfold groupMatchesSpec
            rw [List.filter_cons_of_neg (by simp [hany])]
          rw [hspec]
      · rw [if_neg hcat, ih gm0 (fun e' he' => hdisj e' (List.mem_cons_of_mem _ he'))
          hrest_nodup]
        have hspec : groupMatchesSpec cat (e :: rest) genes = groupMatchesSpec cat rest genes := by
          unfold groupMatchesSpec
          rw [List.filter_cons_of_neg (by simp [hcat])]
        rw [hspec]

/-- Closed form of `get_ur_group_matches` for a group catalog with unique
keys. -/
lemma get_ur_group_matches_eq (cat : List (String × String))
    (gdata : List (String × List String)) (genes : List String)
    (h : (gdata.map Prod.fst).Nodup) :
    get_ur_group_matches cat gdata genes =
      ((groupMatchesSpec cat gdata genes).map
        (fun e => e.1 ++ " [" ++ joinWith "," e.2 ++ "]")).toFinset := by
  unfold get_ur_group_matches
  cases gdata with
  | nil => simp [groupMatchesSpec, groupMatchesFold]
  | cons e rest =>
      simp only [List.isEmpty_cons, if_neg]
      unfold groupMatchesFold
      rw [groupMatchesFold_aux cat genes (e :: rest) [] (by simp) h]
      rfl

lemma groupGenesFold_id (gm : List (String × List String)) (group : String)
    (M : List String) :
    ∀ genes : List String, (∀ g ∈ genes, g ∉ M) → groupGenesFold gm group M genes = gm := by
  intro genes
  induction genes generalizing gm with
  | nil => intro _; rfl
  | cons g gs ih =>
      intro h
      unfold groupGenesFold at ih ⊢
      rw [List.foldl_cons, if_neg (h g (List.mem_cons_self _ _))]
      exact ih gm (fun g' hg' => h g' (List.mem_cons_of_mem _ hg'))

lemma groupMatchesFold_of_no_gated_member (cat : List (String × String))
    (genes : List String) :
    ∀ (gdata : List (String × List String)),
      (∀ e ∈ gdata, e.1 ∈ cat.map Prod.fst → ∀ g ∈ genes, g ∉ e.2) →
      groupMatchesFold cat gdata genes = [] := by
  have aux : ∀ (gdata : List (String × List String)) (gm0 : List (String × List String)),
      (∀ e ∈ gdata, e.1 ∈ cat.map Prod.fst → ∀ g ∈ genes, g ∉ e.2) →
      gdata.foldl
          (fun gm e =>
            if e.1 ∈ cat.map Prod.fst then groupGenesFold gm e.1 e.2 genes else gm)
          gm0 = gm0 := by
    intro gdata
    induction gdata with
    | nil => intro gm0 _; rfl
    | cons e rest ih =>
        intro gm0 h
        rw [List.foldl_cons]
        have hstep :
            (if e.1 ∈ cat.map Prod.fst then groupGenesFold gm0 e.1 e.2 genes else gm0) = gm0 := by
          split_ifs with hc
          · exact groupGenesFold_id gm0 e.1 e.2 genes (h e (List.mem_cons_self _ _) hc)
          · rfl
        rw [hstep]
        exact ih gm0 (fun e' he' => h e' (List.mem_cons_of_mem _ he'))
  intro gdata h
  exact aux gdata [] h

lemma get_ur_group_matches_of_no_gated_member (cat : List (String × String))
    (gdata : List (String × List String)) (genes : List String)
    (h : ∀ e ∈ gdata, e.1 ∈ cat.map Prod.fst → ∀ g ∈ genes, g ∉ e.2) :
    get_ur_group_matches cat gdata genes = ∅ := by
  unfold get_ur_group_matches
  split_ifs with he
  · rfl
  · rw [groupMatchesFold_of_no_gated_member cat genes gdata h]
    rfl

lemma string_append_ne_empty (s t : String) (ht : ¬ (t.data = [])) : ¬ (s ++ t = "") := by
  intro h
  have hlen := congrArg (fun u : String => u.data) h
  simp only [String.data_append] at hlen
  have : t.data = [] := (List.append_eq_nil.mp hlen).2
  exact ht this

/-! ## Claim theorems -/

/-- C1: whenever the regulator-name column or the prediction column of the
(lowercased) header cannot be uniquely identified — the regex filter keeps
zero or more than one column — loading the regulator catalog ends in a hard
error that aborts the run before any catalog is returned: the unassigned
column-name local is read unconditionally a few lines below the check, so
an `UnboundLocalError` is raised and the load never continues with an
unidentified column.  (The `Exception(...)` the check itself builds is
never raised — the missing `raise` changes which exception aborts the run,
not the claimed fail-loudly behaviour.) -/
theorem c1_unresolvable_column_aborts :
    ∀ cols : List String,
      ((cols.map pyLower).filter matchesURRegex).length ≠ 1 ∨
        ((cols.map pyLower).filter matchesPredicRegex).length ≠ 1 →
      identify_catalog_columns cols =
          LoadColumnsResult.unboundLocalError "predic_colname" ∨
        identify_catalog_columns cols =
          LoadColumnsResult.unboundLocalError "ur_colname" := by
  intro cols h
  simp only [identify_catalog_columns]
  rcases hu : (cols.map pyLower).filter matchesURRegex with _ | ⟨u, _ | ⟨u2, us⟩⟩ <;>
    rcases hp : (cols.map pyLower).filter matchesPredicRegex with _ | ⟨p, _ | ⟨p2, ps⟩⟩ <;>
      simp_all

/-- C1 witness: a header with two regulator-column matches aborts the
load, and likewise one with no prediction-column match. -/
theorem c1_unresolvable_column_aborts_witness :
    (identify_catalog_columns ["upstream_regulator", "upstream_regulator_2", "prediction"] =
          LoadColumnsResult.unboundLocalError "predic_colname" ∨
        identify_catalog_columns ["upstream_regulator", "upstream_regulator_2", "prediction"] =
          LoadColumnsResult.unboundLocalError "ur_colname") ∧
      (identify_catalog_columns ["upstream_regulator"] =
          LoadColumnsResult.unboundLocalError "predic_colname" ∨
        identify_catalog_columns ["upstream_regulator"] =
          LoadColumnsResult.unboundLocalError "ur_colname") := by
  exact ⟨c1_unresolvable_column_aborts _ (Or.inl (by decide)),
    c1_unresolvable_column_aborts _ (Or.inr (by decide))⟩

/-- C2: the claim says a pre-existing `UR_EXACT_MATCH` column is
overwritten/replaced, not duplicated.  Because `drop_columns` discards the
frame returned by `dataframe.drop(column, axis=1)` (no `inplace`, no
reassignment), the old column survives into the index-merge, which then
emits `UR_EXACT_MATCH_x` and `UR_EXACT_MATCH_y` — a seven-column output
with the clashing name duplicated under suffixes and no plain
`UR_EXACT_MATCH` column at all. -/
theorem c2_preexisting_match_column_duplicated :
    (main_output ⟨["Genes", "UR_EXACT_MATCH"], [["TLR4", "OLD"]]⟩
        [["", "", ""]] [["", ""]]).cols =
        ["Genes", "UR_EXACT_MATCH_x", "UR_EXACT_MATCH_y", "UR_GROUP_MATCH", "UR_BEST_MATCH",
          "EXACT_MATCH_PREDIC", "BEST_MATCH_PREDIC"] ∧
      (main_output ⟨["Genes", "UR_EXACT_MATCH"], [["TLR4", "OLD"]]⟩
          [["", "", ""]] [["", ""]]).cols.count "UR_EXACT_MATCH" = 0 := by
  refine ⟨?_, ?_⟩ <;> rfl

/-- C3 counterexample: with the group catalog
`{"TLR4 complex": ["TLR4","LY96"]}` and record genes `["TLR4"]`, the claim
demands `group_matches = {"TLR4 complex [TLR4]"}` for *every* regulator
catalog.  With an empty catalog, and likewise with a catalog not containing
the group name, `get_ur_group_matches` returns the empty set: the
`if group in upstream_regulators` gate makes group matching depend on
catalog membership. -/
theorem c3_group_gate_counterexample :
    get_ur_group_matches [] [("TLR4 complex", ["TLR4", "LY96"])] ["TLR4"] = ∅ ∧
      get_ur_group_matches [("THRB", "Inhibited")]
        [("TLR4 complex", ["TLR4", "LY96"])] ["TLR4"] = ∅ := by
  refine ⟨?_, ?_⟩ <;> rfl

/-- C3 amended: group matching is gated on the group name being a key of
the regulator catalog.  For a group catalog with unique keys (a Python
dict), the result has exactly one composite label
`"<G> [<g1>,<g2>,...]"` for every group `G` that is a catalog key and has
at least one member among the record's genes, listing this record's member
genes in the order they appear in the record's gene list; when the group
name is a catalog key the spec's example does hold. -/
theorem c3_group_matches_catalog_gated :
    (∀ (cat : List (String × String)) (gdata : List (String × List String))
        (genes : List String), (gdata.map Prod.fst).Nodup →
        get_ur_group_matches cat gdata genes =
          ((groupMatchesSpec cat gdata genes).map
            (fun e => e.1 ++ " [" ++ joinWith "," e.2 ++ "]")).toFinset) ∧
      get_ur_group_matches [("TLR4 complex", "Activated")]
          [("TLR4 complex", ["TLR4", "LY96"])] ["TLR4"] = {"TLR4 complex [TLR4]"} := by
  exact ⟨get_ur_group_matches_eq, rfl⟩

/-- C3 witness: the amended characterization applied to a concrete record
with two groups, one gated in and one without matching genes. -/
theorem c3_group_matches_catalog_gated_witness :
    get_ur_group_matches [("G", "Activated"), ("H", "Inhibited")]
        [("G", ["a", "b"]), ("H", ["c"])] ["b", "a"] = {"G [b,a]"} := by
  have h := c3_group_matches_catalog_gated.1 [("G", "Activated"), ("H", "Inhibited")]
    [("G", ["a", "b"]), ("H", ["c"])] ["b", "a"] (by decide)
  rw [h]
  rfl

/-- C4: `get_ur_best_matches` returns the exact-match set unchanged when it
is non-empty, otherwise the group-match set unchanged when that is
non-empty, and is empty exactly when both are — a strict priority with no
merging. -/
theorem c4_best_matches_priority :
    ∀ ex gr : Finset String,
      (ex ≠ ∅ → get_ur_best_matches ex gr = ex) ∧
      (ex = ∅ → gr ≠ ∅ → get_ur_best_matches ex gr = gr) ∧
      (get_ur_best_matches ex gr = ∅ ↔ ex = ∅ ∧ gr = ∅) := by
  intro ex gr
  refine ⟨?_, ?_, get_ur_best_matches_empty_iff ex gr⟩
  · intro h
    exact get_ur_best_matches_of_nonempty ex gr (Finset.nonempty_iff_ne_empty.mpr h)
  · intro hex hgr
    exact get_ur_best_matches_of_empty ex gr hex (Finset.nonempty_iff_ne_empty.mpr hgr)

/-- C4 witness: the priority policy at concrete non-empty match sets. -/
theorem c4_best_matches_priority_witness :
    get_ur_best_matches {"THRB"} {"TLR4 complex [TLR4]"} = {"THRB"} ∧
      get_ur_best_matches ∅ {"TLR4 complex [TLR4]"} = {"TLR4 complex [TLR4]"} := by
  exact ⟨(c4_best_matches_priority _ _).1 (by decide),
    (c4_best_matches_priority _ _).2.1 rfl (by decide)⟩

/-- C5: when at least one catalog entry's prediction differs from
`"n.s."`, the filtering removes exactly the `"n.s."` entries and keeps all
others (no warning); when every entry is `"n.s."` the catalog is kept
intact and the caller-visible warning fires. -/
theorem c5_ns_filtering :
    ∀ urs : List (String × String),
      ((∃ rp ∈ urs, ¬ (rp.2 = "n.s.")) →
        filter_significant urs =
          (urs.filter (fun rp => decide (¬ (rp.2 = "n.s."))), false)) ∧
      ((∀ rp ∈ urs, rp.2 = "n.s.") → filter_significant urs = (urs, true)) := by
  intro urs
  constructor
  · intro h
    unfold filter_significant
    rw [if_pos]
    exact List.length_filter_lt_length_iff_exists.mpr (by simpa using h)
  · intro h
    unfold filter_significant
    rw [if_neg]
    rw [List.filter_eq_self.mpr (by simpa using h)]
    exact lt_irrefl _

/-- C5 witness: the spec's two worked examples. -/
theorem c5_ns_filtering_witness :
    filter_significant [("A", "Activated"), ("B", "n.s."), ("C", "n.s.")] =
        ([("A", "Activated")], false) ∧
      filter_significant [("A", "n.s."), ("B", "n.s."), ("C", "n.s.")] =
        ([("A", "n.s."), ("B", "n.s."), ("C", "n.s.")], true) := by
  constructor
  · have h := (c5_ns_filtering [("A", "Activated"), ("B", "n.s."), ("C", "n.s.")]).1
      ⟨("A", "Activated"), by decide, by decide⟩
    exact h.trans (by rfl)
  · exact (c5_ns_filtering [("A", "n.s."), ("B", "n.s."), ("C", "n.s.")]).2 (by decide)

/-- C6: for a regulator `R` of the catalog, `R` is an exact match iff `R`
is literally among the record's genes, or — only when
`ignore_protein_name_matches` is false — `R_HUMAN` or `R_MOUSE` is
literally among the protein names; and the spec's THRB example holds under
both flag values. -/
theorem c6_exact_match_characterization :
    (∀ (cat : List (String × String)) (genes protein_names : List String)
        (ipn : Bool) (R : String), (∃ p, (R, p) ∈ cat) →
        (R ∈ get_ur_exact_matches cat genes protein_names ipn ↔
          R ∈ genes ∨
            (ipn = false ∧
              ((R ++ "_HUMAN") ∈ protein_names ∨ (R ++ "_MOUSE") ∈ protein_names)))) ∧
      get_ur_exact_matches [("THRB", "Inhibited")] ["F2"] ["THRB_HUMAN"] false = {"THRB"} ∧
      get_ur_exact_matches [("THRB", "Inhibited")] ["F2"] ["THRB_HUMAN"] true = ∅ := by
  refine ⟨?_, by rfl, by rfl⟩
  intro cat genes protein_names ipn R hkey
  rw [mem_get_ur_exact_matches]
  unfold exactCond
  exact and_iff_right hkey

/-- C6 witness: the characterization applied to the THRB protein-name
example. -/
theorem c6_exact_match_characterization_witness :
    "THRB" ∈ get_ur_exact_matches [("THRB", "Inhibited")] ["F2"] ["THRB_HUMAN"] false := by
  exact (c6_exact_match_characterization.1 [("THRB", "Inhibited")] ["F2"] ["THRB_HUMAN"]
      false "THRB" ⟨"Inhibited", by decide⟩).mpr
    (Or.inr ⟨rfl, Or.inl (by decide)⟩)

/-- C7: prediction resolution emits, in catalog (insertion) order, the
prediction of each catalog regulator whose name is in the given list (so
the output order is fixed by the catalog); `get_bm_predictions` is exactly
`get_em_predictions` after reducing each label by the bracket-stripping
substitution; names absent from the catalog are silently skipped (dropping
them from the query list changes nothing); and a composite group label is
reduced to the bare group name. -/
theorem c7_prediction_resolution :
    (∀ (cat : List (String × String)) (urs : List String),
        get_em_predictions cat urs =
            (cat.filter (fun rp => decide (rp.1 ∈ urs))).map Prod.snd ∧
          get_bm_predictions cat urs = get_em_predictions cat (urs.map sub_bracket) ∧
          get_em_predictions cat urs =
            get_em_predictions cat (urs.filter (fun u => decide (u ∈ cat.map Prod.fst)))) ∧
      sub_bracket "TLR4 complex [TLR4,LY96]" = "TLR4 complex" := by
  refine ⟨?_, by rfl⟩
  intro cat urs
  refine ⟨get_em_predictions_eq cat urs, get_bm_predictions_eq_em cat urs, ?_⟩
  rw [get_em_predictions_eq, get_em_predictions_eq]
  refine congrArg (List.map Prod.snd) (List.filter_congr ?_)
  intro rp hrp
  refine decide_eq_decide.mpr ?_
  constructor
  · intro h
    exact List.mem_filter.mpr ⟨h, by simpa using List.mem_map_of_mem Prod.fst hrp⟩
  · intro h
    exact (List.mem_filter.mp h).1

/-- C8 counterexample: the claim says a record whose `Genes` field is
absent is treated as an *empty list*, producing no matches.  `main`
computes `row.get('Genes', '').split(';')`, and `''.split(';')` is `['']` —
a singleton list holding the empty string — which does produce a match as
soon as the empty string occurs as a member of a catalog-gated group. -/
theorem c8_absent_field_counterexample :
    rowFieldList none = [""] ∧
      get_ur_group_matches [("G", "Activated")] [("G", [""])] (rowFieldList none) =
        {"G []"} := by
  refine ⟨rfl, rfl⟩

/-- C8 amended: the matchers are total and empty gene/protein lists yield
empty match sets; an absent `Genes`/`Protein_Names` field is treated as the
singleton list `[""]` (the `';'`-split of the `''` default), which yields
no matches provided the empty string is not itself a catalog regulator
name or a member of a catalog-gated group (a group that is not a regulator
of the catalog never matches, whatever its members). -/
theorem c8_empty_and_absent_fields :
    (∀ (cat : List (String × String)) (gdata : List (String × List String)) (ipn : Bool),
        get_ur_exact_matches cat [] [] ipn = ∅ ∧
          get_ur_group_matches cat gdata [] = ∅ ∧
          get_ur_best_matches ∅ ∅ = ∅) ∧
      rowFieldList none = [""] ∧
      (∀ (cat : List (String × String)) (ipn : Bool), "" ∉ cat.map Prod.fst →
        get_ur_exact_matches cat (rowFieldList none) (rowFieldList none) ipn = ∅) ∧
      (∀ (cat : List (String × String)) (gdata : List (String × List String)),
        (∀ e ∈ gdata, e.1 ∈ cat.map Prod.fst → "" ∉ e.2) →
        get_ur_group_matches cat gdata (rowFieldList none) = ∅) := by
  refine ⟨?_, rfl, ?_, ?_⟩
  · intro cat gdata ipn
    refine ⟨?_, ?_, by decide⟩
    · refine Finset.eq_empty_iff_forall_not_mem.mpr ?_
      intro R hR
      have h := (mem_get_ur_exact_matches cat [] [] ipn R).mp hR
      simp [exactCond] at h
    · exact get_ur_group_matches_of_no_gated_member cat gdata []
        (fun e _ _ g hg => absurd hg (List.not_mem_nil g))
  · intro cat ipn hempty
    refine Finset.eq_empty_iff_forall_not_mem.mpr ?_
    intro R hR
    have h := (mem_get_ur_exact_matches cat (rowFieldList none) (rowFieldList none) ipn R).mp hR
    rcases h with ⟨⟨p, hp⟩, hcond⟩
    rcases hcond with hg | ⟨-, hs | hs⟩
    · have hR0 : R = "" := by simpa [rowFieldList, pySplit, pySplitAux] using hg
      exact hempty (hR0 ▸ List.mem_map_of_mem Prod.fst hp)
    · have : R ++ "_HUMAN" = "" := by simpa [rowFieldList, pySplit, pySplitAux] using hs
      exact string_append_ne_empty R "_HUMAN" (by decide) this
    · have : R ++ "_MOUSE" = "" := by simpa [rowFieldList, pySplit, pySplitAux] using hs
      exact string_append_ne_empty R "_MOUSE" (by decide) this
  · intro cat gdata h
    refine get_ur_group_matches_of_no_gated_member cat gdata (rowFieldList none) ?_
    intro e he hgate g hg
    have hg0 : g = "" := by simpa [rowFieldList, pySplit, pySplitAux] using hg
    exact hg0 ▸ h e he hgate

/-- C8 witness: the amended statement applied to a concrete catalog, once
with a gated group without empty-string members and once with a non-gated
group that does contain the empty string. -/
theorem c8_empty_and_absent_fields_witness :
    get_ur_exact_matches [("THRB", "Inhibited")] (rowFieldList none)
        (rowFieldList none) false = ∅ ∧
      get_ur_group_matches [("G", "Activated")] [("G", ["TLR4"])] (rowFieldList none) = ∅ ∧
      get_ur_group_matches [("G", "Activated")] [("H", [""])] (rowFieldList none) = ∅ := by
  exact ⟨c8_empty_and_absent_fields.2.2.1 [("THRB", "Inhibited")] false (by decide),
    c8_empty_and_absent_fields.2.2.2 [("G", "Activated")] [("G", ["TLR4"])] (by decide),
    c8_empty_and_absent_fields.2.2.2 [("G", "Activated")] [("H", [""])] (by decide)⟩

/-- C9 (implicit): when no catalog regulator name contains a `" [...]"`
substring and the record's exact-match set is non-empty, the best-match set
is the exact-match set, and for any query list drawn from it the best-match
predictions coincide with the exact-match predictions: bracket-stripping
fixes every bare regulator name. -/
theorem c9_bm_predictions_match_em :
    ∀ (cat : List (String × String)) (genes prots : List String) (ipn : Bool)
      (gdata : List (String × List String)),
      (∀ rp ∈ cat, containsSpaceBracketClose (String.data rp.1) = false) →
      get_ur_exact_matches cat genes prots ipn ≠ ∅ →
      (get_ur_best_matches (get_ur_exact_matches cat genes prots ipn)
          (get_ur_group_matches cat gdata genes) =
        get_ur_exact_matches cat genes prots ipn) ∧
      (∀ urs : List String,
        (∀ u ∈ urs, u ∈ get_ur_exact_matches cat genes prots ipn) →
        get_bm_predictions cat urs = get_em_predictions cat urs) := by
  intro cat genes prots ipn gdata hbrack hne
  refine ⟨get_ur_best_matches_of_nonempty _ _ (Finset.nonempty_iff_ne_empty.mpr hne), ?_⟩
  intro urs hurs
  rw [get_bm_predictions_eq, get_em_predictions_eq]
  refine congrArg (List.map Prod.snd) (List.filter_congr ?_)
  intro rp hrp
  refine decide_eq_decide.mpr ?_
  constructor
  · intro h
    rcases List.mem_map.mp h with ⟨u, hu, hsub⟩
    have hukey : ∃ p, (u, p) ∈ cat :=
      ((mem_get_ur_exact_matches cat genes prots ipn u).mp (hurs u hu)).1
    rcases hukey with ⟨p, hp⟩
    have hfix : sub_bracket u = u := sub_bracket_of_not_contains u (hbrack (u, p) hp)
    rw [← hsub, hfix]
    exact hu
  · intro h
    have hfix : sub_bracket rp.1 = rp.1 := sub_bracket_of_not_contains rp.1 (hbrack rp hrp)
    exact List.mem_map.mpr ⟨rp.1, h, hfix⟩

/-- C9 witness: the predictions coincide on a concrete bracket-free
catalog and record. -/
theorem c9_bm_predictions_match_em_witness :
    get_bm_predictions [("A", "Activated")] ["A"] =
      get_em_predictions [("A", "Activated")] ["A"] := by
  exact (c9_bm_predictions_match_em [("A", "Activated")] ["A"] [] false []
      (by decide) (by decide)).2 ["A"] (by decide)

/-- C10 (implicit): the prediction list has exactly one element per catalog
entry whose name appears in the query list — its length is the number of
matched catalog entries — and duplicate prediction labels are preserved,
not deduplicated. -/
theorem c10_prediction_multiplicity :
    (∀ (cat : List (String × String)) (urs : List String),
        (get_em_predictions cat urs).length =
            (cat.filter (fun rp => decide (rp.1 ∈ urs))).length ∧
          (get_bm_predictions cat urs).length =
            (cat.filter (fun rp => decide (rp.1 ∈ urs.map sub_bracket))).length) ∧
      get_em_predictions [("A", "Activated"), ("B", "Activated")] ["A", "B"] =
        ["Activated", "Activated"] := by
  refine ⟨?_, by rfl⟩
  intro cat urs
  constructor
  · rw [get_em_predictions_eq, List.length_map]
  · rw [get_bm_predictions_eq, List.length_map]

end URAProteome
